import Mathlib

/-!
Verification of `fixedincomelib/market/registries.py`: the index, fixings,
data-convention and data-identifier registries. Python dicts are embedded as
association lists with first-match lookup (so consing a binding shadows, i.e.
overwrites, an older one), machine floats appearing in the fixings CSV files
are embedded as rationals (they are only stored and compared, never computed
with), and calendar dates as their ISO strings. `str.upper`, `str.lower` and
`str.split` are embedded as executable ASCII case maps and a structural
splitter, matching Python on the ASCII registry keys this module handles.
-/

namespace Registries

/-- ASCII upper-casing of one character: embedding of what Python `str.upper`
does on the ASCII registry keys. -/
def upChar (c : Char) : Char :=
  if 97 ≤ c.toNat ∧ c.toNat ≤ 122 then Char.ofNat (c.toNat - 32) else c

/-- ASCII lower-casing of one character: embedding of Python `str.lower`. -/
def loChar (c : Char) : Char :=
  if 65 ≤ c.toNat ∧ c.toNat ≤ 90 then Char.ofNat (c.toNat + 32) else c

/-- Embedding of Python `key.upper()`. -/
def upStr (s : String) : String := ⟨s.data.map upChar⟩

/-- Embedding of Python `key.lower()`. -/
def loStr (s : String) : String := ⟨s.data.map loChar⟩

/-- Embedding of Python `str(key).split('-')`: groups of characters between
the `-` separators (never returns an empty list of groups). -/
def splitDash : List Char → List (List Char)
  | [] => [[]]
  | c :: rest =>
    match splitDash rest with
    | [] => [[]]
    | g :: gs => if c = '-' then [] :: g :: gs else (c :: g) :: gs

/-- `str(key).split('-')[-1]`: the candidate tenor suffix of an index key. -/
def lastToken (k : String) : String := ⟨(splitDash k.data).getLastD []⟩

/-- ISO date strings stand in for `fixedincomelib.date.Date` values; the CSV
loader parses the `date` column with format `YYYY-MM-DD`, and this module only
ever stores and compares dates. -/
abbrev DateStr := String

/-- A Python dict keyed by strings: association list, first match wins. -/
abbrev Store (α : Type) := List (String × α)

/-- First-match lookup, the embedding of `d[k]` / `k in d`. -/
def lookupS {α : Type} : Store α → String → Option α
  | [], _ => none
  | (k, v) :: rest, q => if q = k then some v else lookupS rest q

/-- Embedding of `d[k] = v`: the new binding shadows any older one. -/
def insertS {α : Type} (st : Store α) (k : String) (v : α) : Store α :=
  (k, v) :: st

/-- Embedding of deleting key `k`: removes every binding of `k`. -/
def eraseS {α : Type} (st : Store α) (k : String) : Store α :=
  st.filter (fun p => decide (p.1 ≠ k))

/-- Embedding of `k in d`. -/
def containsS {α : Type} (st : Store α) (k : String) : Bool :=
  (lookupS st k).isSome

/-- The error kinds of §7 of the spec. `constructionError` carries the message
the source formats, since the spec quotes it; `typeError` stands for the
uncaught Python `TypeError` of calling a string method on a non-string. -/
inductive Err where
  | duplicateKey
  | notFound
  | unknownIndexType
  | missingField
  | typeError
  | constructionError (msg : String)
  deriving DecidableEq

instance {ε α : Type} [DecidableEq ε] [DecidableEq α] :
    DecidableEq (Except ε α) := fun x y =>
  match x, y with
  | .ok a, .ok b =>
    if h : a = b then .isTrue (by rw [h])
    else .isFalse (by intro hc; cases hc; exact h rfl)
  | .error a, .error b =>
    if h : a = b then .isTrue (by rw [h])
    else .isFalse (by intro hc; cases hc; exact h rfl)
  | .ok _, .error _ => .isFalse (by intro hc; cases hc)
  | .error _, .ok _ => .isFalse (by intro hc; cases hc)

/-- Modelled from the spec: the base class `Registry` (imported from
`fixedincomelib.utilities`, which is not among the sources) per §4.1:
`register(key, value)` fails with DuplicateKey when the key exists and
otherwise inserts the binding into the singleton store. §4.3 and §8 require
that a fixings series stored under the upper-cased key is found by a `get` of
the lower-cased key (for example `register("SOFR", _)` followed by
`exist_fixing("sofr", d)`), so the base store is modelled as normalizing keys
to upper case in `register`, `get` and `erase`. -/
def registerBase {α : Type} (st : Store α) (k : String) (v : α) :
    Except Err (Store α) :=
  if containsS st (upStr k) then .error .duplicateKey
  else .ok (insertS st (upStr k) v)

/-- Modelled from the spec: base `Registry.get`, §4.1 — fails with NotFound
when the key is absent; key normalized to upper case (see `registerBase`). -/
def getBase {α : Type} (st : Store α) (k : String) : Except Err α :=
  match lookupS st (upStr k) with
  | some v => .ok v
  | none => .error .notFound

/-- Modelled from the spec: base `Registry.erase`, §4.1 — removes an entry,
fails with NotFound when absent; key normalized (see `registerBase`). -/
def eraseBase {α : Type} (st : Store α) (k : String) : Except Err (Store α) :=
  if containsS st (upStr k) then .ok (eraseS st (upStr k))
  else .error .notFound

/-! ## IndexRegistry -/

/-- What `IndexRegistry._map` can hold at a key: the raw type name inserted by
the base registration (`super().register(key, value)`), a parameterless index
(`ql_object()`), or a tenor-parameterized index (`ql_object(Period(tenor))`). -/
inductive IndexVal where
  | raw (typeName : String)
  | bare (typeName : String)
  | term (typeName : String) (tenor : String)
  deriving DecidableEq

/-- The external QuantLib catalog and tenor classifier, abstracted: `hasAttr`
is whether `getattr(ql, name)` succeeds, `bareOk` tells whether the
zero-argument construction `ql_object()` succeeds (the bare `except:` treats
any failure alike), and `is_term` is `TermOrTerminationDate(s).is_term()`. -/
structure QLEnv where
  hasAttr : String → Bool
  bareOk : String → Bool
  is_term : String → Bool

/-- Embedding of `IndexRegistry.register` (registries.py lines 18-34): base
registration first, then `getattr(ql, value)` (KeyError when absent), then the
parameterless construction stored at `key.upper()`, falling back, on any
construction failure, to classifying the last `-`-separated token of the key
and storing a tenor index at the raw `key`. Returns the result together with
the `_map` as left by the call (a raise does not undo earlier writes). -/
def indexRegister (env : QLEnv) (st : Store IndexVal) (k tn : String) :
    Except Err Unit × Store IndexVal :=
  match registerBase st k (.raw tn) with
  | .error e => (.error e, st)
  | .ok st1 =>
    if env.hasAttr tn then
      if env.bareOk tn then
        (.ok (), insertS st1 (upStr k) (.bare tn))
      else
        let tenor := lastToken k
        if env.is_term tenor then (.ok (), insertS st1 k (.term tn tenor))
        else
          (.error (.constructionError
            (("Cannot create a term index for key ") ++ k ++ ("."))), st1)
    else (.error .unknownIndexType, st1)

/-- Embedding of `IndexRegistry.get` (lines 36-39): membership test and lookup
of `key.upper()` directly against `_map`. -/
def indexGet (st : Store IndexVal) (k : String) : Except Err IndexVal :=
  match lookupS st (upStr k) with
  | some v => .ok v
  | none => .error .notFound

/-! ## IndexFixingsManager -/

/-- A per-index time series: Python dict from `Date` to `float`, embedded as
dict from ISO date string to rational. -/
abbrev Series := List (DateStr × ℚ)

/-- The filesystem as the fixings loader sees it: the parsed rows of
`<FIXING_SOURCE>/<name>.csv` for each lower-cased file name `name`, or `none`
when that file does not exist. Rows come parsed, as the `strptime` date and
the `float` of the `fixing` column. -/
structure FixEnv where
  files : String → Option (List (DateStr × ℚ))

/-- Lookup in one series (`date in this_map` / `this_map[date]`). -/
def seriesGet (s : Series) (d : DateStr) : Option ℚ :=
  lookupS s d

/-- Assignment into one series (`this_map[date] = fixing`). -/
def seriesSet (s : Series) (d : DateStr) (v : ℚ) : Series :=
  insertS s d v

/-- The CSV loading loop of `IndexFixingsManager.register` (lines 72-74):
for each row, `self._map.setdefault(key.upper(), {})[fixing_date] = fixing`. -/
def loadRows (st : Store Series) (kU : String) (rows : List (DateStr × ℚ)) :
    Store Series :=
  rows.foldl
    (fun acc row => insertS acc kU (seriesSet ((lookupS acc kU).getD []) row.1 row.2))
    st

/-- Embedding of `IndexFixingsManager.register` (lines 66-74): base
registration, then, when `<root>/<key.lower()>.csv` exists, the row-by-row
load into the series at `key.upper()`. -/
def fixRegister (env : FixEnv) (st : Store Series) (k : String) (v : Series) :
    Except Err Unit × Store Series :=
  match registerBase st k v with
  | .error e => (.error e, st)
  | .ok st1 =>
    match env.files (loStr k) with
    | none => (.ok (), st1)
    | some rows => (.ok (), loadRows st1 (upStr k) rows)

/-- Embedding of `IndexFixingsManager.insert_fixing` (lines 76-81): fetch the
series via the base `get` of `index.lower()`; when the date is present return
without writing, else assign. The Python assignment mutates the dict object
the base `get` found, i.e. the binding at the normalized key. -/
def insert_fixing (st : Store Series) (idx : String) (d : DateStr) (v : ℚ) :
    Except Err Unit × Store Series :=
  match getBase st (loStr idx) with
  | .error e => (.error e, st)
  | .ok s =>
    if (seriesGet s d).isSome then (.ok (), st)
    else (.ok (), insertS st (upStr (loStr idx)) (seriesSet s d v))

/-- Embedding of `IndexFixingsManager.exist_fixing` (lines 83-85). -/
def exist_fixing (st : Store Series) (idx : String) (d : DateStr) :
    Except Err Bool :=
  match getBase st (loStr idx) with
  | .error e => .error e
  | .ok s => .ok (seriesGet s d).isSome

/-- Embedding of `IndexFixingsManager.get_fixing` (lines 87-92). -/
def get_fixing (st : Store Series) (idx : String) (d : DateStr) :
    Except Err ℚ :=
  match getBase st (loStr idx) with
  | .error e => .error e
  | .ok s =>
    match seriesGet s d with
    | some v => .ok v
    | none => .error .notFound

/-- Embedding of `IndexFixingsManager.remove_fixing` (lines 94-99): with no
date, `self.erase(index)` on the raw index string; with a date, pop that date
from the series found by the base `get` of the raw index (a `KeyError` when
the date is absent). -/
def remove_fixing (st : Store Series) (idx : String) (d : Option DateStr) :
    Except Err Unit × Store Series :=
  match d with
  | none =>
    match eraseBase st idx with
    | .error e => (.error e, st)
    | .ok st1 => (.ok (), st1)
  | some d0 =>
    match getBase st idx with
    | .error e => (.error e, st)
    | .ok s =>
      if (seriesGet s d0).isSome then
        (.ok (), insertS st (upStr idx) (s.filter (fun p => decide (p.1 ≠ d0))))
      else (.error .notFound, st)

/-! ## DataConventionRegFunction, DataConventionRegistry, DataIdentifierRegistry -/

/-- A field value of a convention specification dict (`Any` in the source; the
spec exercises string and integer fields). -/
inductive SpecVal where
  | str (s : String)
  | num (n : Int)
  deriving DecidableEq

/-- A convention specification: Python dict of field name to field value. -/
abbrev SpecDict := Store SpecVal

/-- A value living in the shared store of the two registries constructed with
the empty namespace: either a constructor registered through
`DataConventionRegFunction` (kept abstract, by name) or an opaque identifier
registered through `DataIdentifierRegistry`. -/
inductive SharedVal where
  | ctorFn (name : String)
  | ident (s : String)
  deriving DecidableEq

/-- A constructed convention object: the uninterpreted application
`func(key, value_)` of the looked-up constructor to the key and the remaining
specification fields. -/
inductive ConvObj where
  | applied (f : SharedVal) (key : String) (fields : SpecDict)
  deriving DecidableEq

/-- What `DataConventionRegistry._map` can hold at a key: the raw
specification dict inserted by the base registration, or the constructed
convention object that line 121 overwrites it with. -/
inductive DCVal where
  | rawSpec (d : SpecDict)
  | conv (c : ConvObj)
  deriving DecidableEq

/-- The namespace string `DataConventionRegFunction.__new__` passes to the
base constructor (line 104). -/
def dcfNamespace : String := ""

/-- The namespace string `DataIdentifierRegistry.__new__` passes to the base
constructor (line 133). -/
def dirNamespace : String := ""

/-- Modelled from the spec, §4.1: the process-wide family of singleton stores,
one per namespace string — construction of a registry with the same namespace
returns the same underlying store. Scoped here to the stores holding
`SharedVal` entries. -/
abbrev NsState := String → Store SharedVal

/-- Replace the store of one namespace in the process state. -/
def nsUpdate (p : NsState) (ns : String) (st : Store SharedVal) : NsState :=
  fun q => if q = ns then st else p q

/-- Embedding of `DataConventionRegFunction.register` (lines 106-108): base
registration into the store of its namespace, then the direct assignment
`self._map[key] = value` at the raw key. -/
def dcfRegister (p : NsState) (k : String) (v : SharedVal) :
    Except Err Unit × NsState :=
  match registerBase (p dcfNamespace) k v with
  | .error e => (.error e, p)
  | .ok st1 => (.ok (), nsUpdate p dcfNamespace (insertS st1 k v))

/-- `DataConventionRegFunction.get`: the inherited base `get` on the store of
its namespace. -/
def dcfGet (p : NsState) (k : String) : Except Err SharedVal :=
  getBase (p dcfNamespace) k

/-- Embedding of `DataIdentifierRegistry.register` (lines 135-137): base
registration into the store of its namespace, then the direct assignment
`self._map[key] = value` at the raw key. -/
def dirRegister (p : NsState) (k : String) (v : SharedVal) :
    Except Err Unit × NsState :=
  match registerBase (p dirNamespace) k v with
  | .error e => (.error e, p)
  | .ok st1 => (.ok (), nsUpdate p dirNamespace (insertS st1 k v))

/-- The outcome of a `DataConventionRegistry.register` call: the raised error
or success, the `_map` as left by the call, and the content of the dict object
the caller passed in after the call returns (so that in-place mutation of the
argument would be observable). -/
structure DCRResult where
  res : Except Err Unit
  store : Store DCVal
  callerDict : SpecDict
  deriving DecidableEq

/-- Embedding of `DataConventionRegistry.register` (lines 115-121).
`value_ = value.copy()` makes a fresh dict object with the same entries, so
the later in-place `value_.pop('type')` acts on the copy and never on the
object the caller passed: every branch returns `value` unchanged in
`callerDict`, while the threaded copy evolves. The base registration stores
the copy itself, so the pop is visible in the stored raw spec; line 120 looks
the extracted type up in the `DataConventionRegFunction` store (a non-string
type field would make `key.upper()` in the base `get` raise a `TypeError`);
line 121 overwrites at the raw key with the constructed object. -/
def dcrRegister (fstore : Store SharedVal) (st : Store DCVal) (k : String)
    (value : SpecDict) : DCRResult :=
  let value1 := value
  match registerBase st k (.rawSpec value1) with
  | .error e => ⟨.error e, st, value⟩
  | .ok st1 =>
    match lookupS value1 ("type") with
    | none => ⟨.error .missingField, st1, value⟩
    | some ty =>
      let value2 := eraseS value1 ("type")
      let st2 := insertS st1 (upStr k) (.rawSpec value2)
      match ty with
      | .num _ => ⟨.error .typeError, st2, value⟩
      | .str tyName =>
        match lookupS fstore (upStr tyName) with
        | none => ⟨.error .notFound, st2, value⟩
        | some f => ⟨.ok (), insertS st2 k (.conv (.applied f k value2)), value⟩

/-! ## Store and case-mapping lemmas -/

theorem upChar_loChar (c : Char) : upChar (loChar c) = upChar c := by
  unfold loChar upChar
  by_cases h : 65 ≤ c.toNat ∧ c.toNat ≤ 90
  · rw [if_pos h]
    have hv : (c.toNat + 32).isValidChar := by
      left
      omega
    have ht : (Char.ofNat (c.toNat + 32)).toNat = c.toNat + 32 := by
      unfold Char.ofNat
      rw [dif_pos hv]
      unfold Char.ofNatAux Char.toNat
      simp [UInt32.toNat, UInt32.ofNatCore]
    rw [ht]
    have h1 : 97 ≤ c.toNat + 32 ∧ c.toNat + 32 ≤ 122 := by omega
    rw [if_pos h1, if_neg (by omega)]
    have h2 : c.toNat + 32 - 32 = c.toNat := by omega
    rw [h2, Char.ofNat_toNat]
  · rw [if_neg h]

theorem upStr_loStr (s : String) : upStr (loStr s) = upStr s := by
  unfold upStr loStr
  simp [List.map_map, Function.comp_def, upChar_loChar]

theorem lookupS_insertS_self {α : Type} (st : Store α) (k : String) (v : α) :
    lookupS (insertS st k v) k = some v := by
  simp [insertS, lookupS]

theorem containsS_insertS_self {α : Type} (st : Store α) (k : String) (v : α) :
    containsS (insertS st k v) k = true := by
  simp [containsS, lookupS_insertS_self]

theorem lookupS_eraseS_self {α : Type} (st : Store α) (k : String) :
    lookupS (eraseS st k) k = none := by
  induction st with
  | nil => rfl
  | cons p rest ih =>
    by_cases h : p.1 = k
    · simpa [eraseS, h] using ih
    · simpa [eraseS, lookupS, h, Ne.symm h] using ih

/-! ## Stepping lemmas: one evaluation lemma per branch of the operations -/

theorem containsS_false {α : Type} {st : Store α} {k : String}
    (h : lookupS st k = none) : containsS st k = false := by
  simp [containsS, h]

theorem containsS_true {α : Type} {st : Store α} {k : String} {v : α}
    (h : lookupS st k = some v) : containsS st k = true := by
  simp [containsS, h]

theorem indexRegister_dup {env : QLEnv} {st : Store IndexVal} {k tn : String}
    (h : containsS st (upStr k) = true) :
    indexRegister env st k tn = (.error .duplicateKey, st) := by
  simp [indexRegister, registerBase, h]

theorem indexRegister_noattr {env : QLEnv} {st : Store IndexVal} {k tn : String}
    (h : containsS st (upStr k) = false) (hA : env.hasAttr tn = false) :
    indexRegister env st k tn =
      (.error .unknownIndexType, insertS st (upStr k) (.raw tn)) := by
  simp [indexRegister, registerBase, h, hA]

theorem indexRegister_bare {env : QLEnv} {st : Store IndexVal} {k tn : String}
    (h : containsS st (upStr k) = false) (hA : env.hasAttr tn = true)
    (hB : env.bareOk tn = true) :
    indexRegister env st k tn =
      (.ok (), insertS (insertS st (upStr k) (.raw tn)) (upStr k) (.bare tn)) := by
  simp [indexRegister, registerBase, h, hA, hB]

theorem indexRegister_term {env : QLEnv} {st : Store IndexVal} {k tn : String}
    (h : containsS st (upStr k) = false) (hA : env.hasAttr tn = true)
    (hB : env.bareOk tn = false) (hT : env.is_term (lastToken k) = true) :
    indexRegister env st k tn =
      (.ok (), insertS (insertS st (upStr k) (.raw tn)) k
        (.term tn (lastToken k))) := by
  simp [indexRegister, registerBase, h, hA, hB, hT]

theorem indexRegister_cerr {env : QLEnv} {st : Store IndexVal} {k tn : String}
    (h : containsS st (upStr k) = false) (hA : env.hasAttr tn = true)
    (hB : env.bareOk tn = false) (hT : env.is_term (lastToken k) = false) :
    indexRegister env st k tn =
      (.error (.constructionError
        (("Cannot create a term index for key ") ++ k ++ ("."))),
       insertS st (upStr k) (.raw tn)) := by
  simp [indexRegister, registerBase, h, hA, hB, hT]

theorem dcrRegister_dup {fstore : Store SharedVal} {st : Store DCVal}
    {k : String} {d : SpecDict} (h : containsS st (upStr k) = true) :
    dcrRegister fstore st k d = ⟨.error .duplicateKey, st, d⟩ := by
  simp [dcrRegister, registerBase, h]

theorem dcrRegister_missing {fstore : Store SharedVal} {st : Store DCVal}
    {k : String} {d : SpecDict} (h : containsS st (upStr k) = false)
    (hty : lookupS d ("type") = none) :
    dcrRegister fstore st k d =
      ⟨.error .missingField, insertS st (upStr k) (.rawSpec d), d⟩ := by
  simp [dcrRegister, registerBase, h, hty]

theorem dcrRegister_badtype {fstore : Store SharedVal} {st : Store DCVal}
    {k : String} {d : SpecDict} {n : Int} (h : containsS st (upStr k) = false)
    (hty : lookupS d ("type") = some (.num n)) :
    dcrRegister fstore st k d =
      ⟨.error .typeError,
       insertS (insertS st (upStr k) (.rawSpec d)) (upStr k)
         (.rawSpec (eraseS d ("type"))), d⟩ := by
  simp [dcrRegister, registerBase, h, hty]

theorem dcrRegister_noctor {fstore : Store SharedVal} {st : Store DCVal}
    {k tyName : String} {d : SpecDict} (h : containsS st (upStr k) = false)
    (hty : lookupS d ("type") = some (.str tyName))
    (hf : lookupS fstore (upStr tyName) = none) :
    dcrRegister fstore st k d =
      ⟨.error .notFound,
       insertS (insertS st (upStr k) (.rawSpec d)) (upStr k)
         (.rawSpec (eraseS d ("type"))), d⟩ := by
  simp [dcrRegister, registerBase, h, hty, hf]

theorem dcrRegister_ok {fstore : Store SharedVal} {st : Store DCVal}
    {k tyName : String} {d : SpecDict} {f : SharedVal}
    (h : containsS st (upStr k) = false)
    (hty : lookupS d ("type") = some (.str tyName))
    (hf : lookupS fstore (upStr tyName) = some f) :
    dcrRegister fstore st k d =
      ⟨.ok (),
       insertS (insertS (insertS st (upStr k) (.rawSpec d)) (upStr k)
           (.rawSpec (eraseS d ("type")))) k
         (.conv (.applied f k (eraseS d ("type")))), d⟩ := by
  simp [dcrRegister, registerBase, h, hty, hf]

/-! ## Claim C1 -/

/-- Claim C1, counterexample. The claim says a failed `register` leaves the
store without an entry for the key: after a failed `IndexRegistry.register`, a
`get` of the key should fail NotFound and a re-register should not fail
DuplicateKey. At the concrete input: empty registry, catalog without the type
`Sofr`, `register("SOFR", "Sofr")` raises the unknown-index-type KeyError, yet
`get("SOFR")` then succeeds (returning the raw registered type name) and a
second `register("SOFR", "Sofr")` fails DuplicateKey — both parts false. -/
theorem register_failure_not_atomic_cex :
    (indexRegister ⟨fun _ => false, fun _ => false, fun _ => false⟩ []
        ("SOFR") ("Sofr")).1 = .error .unknownIndexType ∧
    indexGet (indexRegister ⟨fun _ => false, fun _ => false, fun _ => false⟩ []
        ("SOFR") ("Sofr")).2 ("SOFR") = .ok (.raw ("Sofr")) ∧
    (indexRegister ⟨fun _ => false, fun _ => false, fun _ => false⟩
        (indexRegister ⟨fun _ => false, fun _ => false, fun _ => false⟩ []
          ("SOFR") ("Sofr")).2 ("SOFR") ("Sofr")).1 = .error .duplicateKey :=
  ⟨by decide, by decide, by decide⟩

/-- Claim C1, amended. A `register(k, v)` call of `IndexRegistry` or
`DataConventionRegistry` that raises an error after the base registration
(unknown index type or failed construction; missing "type" field or unknown
constructor) leaves the key present in the store with its raw registered
value: a subsequent `get(k)` succeeds rather than failing NotFound, and a
subsequent `register(k, v2)` fails DuplicateKey. -/
theorem register_failure_leaves_key_registered :
    (∀ (env : QLEnv) (st : Store IndexVal) (k tn : String) (e : Err),
        lookupS st (upStr k) = none →
        (indexRegister env st k tn).1 = .error e →
        indexGet (indexRegister env st k tn).2 k = .ok (.raw tn) ∧
        ∀ tn2, (indexRegister env (indexRegister env st k tn).2 k tn2).1 =
          .error .duplicateKey) ∧
    (∀ (fstore : Store SharedVal) (st : Store DCVal) (k : String)
        (d : SpecDict) (e : Err),
        lookupS st (upStr k) = none →
        (dcrRegister fstore st k d).res = .error e →
        (∃ v, getBase (dcrRegister fstore st k d).store k = .ok v) ∧
        ∀ d2, (dcrRegister fstore (dcrRegister fstore st k d).store k d2).res =
          .error .duplicateKey) := by
  constructor
  · intro env st k tn e hfresh herr
    have hc := containsS_false hfresh
    have hst2 : (indexRegister env st k tn).2 = insertS st (upStr k) (.raw tn) := by
      cases hA : env.hasAttr tn
      · rw [indexRegister_noattr hc hA]
      · cases hB : env.bareOk tn
        · cases hT : env.is_term (lastToken k)
          · rw [indexRegister_cerr hc hA hB hT]
          · rw [indexRegister_term hc hA hB hT] at herr
            simp at herr
        · rw [indexRegister_bare hc hA hB] at herr
          simp at herr
    refine ⟨?_, ?_⟩
    · rw [hst2]
      simp [indexGet, lookupS_insertS_self]
    · intro tn2
      rw [hst2, indexRegister_dup (containsS_insertS_self ..)]
  · intro fstore st k d e hfresh herr
    have hc := containsS_false hfresh
    have hmain : ∃ w, lookupS (dcrRegister fstore st k d).store (upStr k) = some w := by
      cases hty : lookupS d ("type") with
      | none =>
        rw [dcrRegister_missing hc hty]
        exact ⟨_, lookupS_insertS_self ..⟩
      | some ty =>
        cases ty with
        | num n =>
          rw [dcrRegister_badtype hc hty]
          exact ⟨_, lookupS_insertS_self ..⟩
        | str tyName =>
          cases hf : lookupS fstore (upStr tyName) with
          | none =>
            rw [dcrRegister_noctor hc hty hf]
            exact ⟨_, lookupS_insertS_self ..⟩
          | some f =>
            rw [dcrRegister_ok hc hty hf] at herr
            simp at herr
    obtain ⟨w, hw⟩ := hmain
    refine ⟨⟨w, by simp [getBase, hw]⟩, ?_⟩
    intro d2
    rw [dcrRegister_dup (containsS_true hw)]

/-- Claim C1, witness for the amended theorem at concrete inputs: an
`IndexRegistry` whose catalog knows no type, key `SOFR`, and a fresh
`DataConventionRegistry` given a spec dict lacking the "type" field. -/
theorem register_failure_leaves_key_registered_witness :
    (indexGet (indexRegister ⟨fun _ => false, fun _ => false, fun _ => false⟩ []
        ("SOFR") ("Sofr")).2 ("SOFR") = .ok (.raw ("Sofr")) ∧
      (indexRegister ⟨fun _ => false, fun _ => false, fun _ => false⟩
        (indexRegister ⟨fun _ => false, fun _ => false, fun _ => false⟩ []
          ("SOFR") ("Sofr")).2 ("SOFR") ("Libor")).1 = .error .duplicateKey) ∧
    ((∃ v, getBase (dcrRegister [] [] ("DC") []).store ("DC") = .ok v) ∧
      (dcrRegister [] (dcrRegister [] [] ("DC") []).store ("DC") []).res =
        .error .duplicateKey) := by
  have h1 := register_failure_leaves_key_registered.1
    ⟨fun _ => false, fun _ => false, fun _ => false⟩ [] ("SOFR") ("Sofr")
    .unknownIndexType (by decide) (by decide)
  have h2 := register_failure_leaves_key_registered.2 [] [] ("DC") []
    .missingField (by decide) (by decide)
  exact ⟨⟨h1.1, h1.2 ("Libor")⟩, ⟨h2.1, h2.2 []⟩⟩

/-! ## Claim C2 -/

/-- Claim C2, counterexample. The claim says every successfully registered
index — including tenor-parameterized ones built by the fallback branch — is
stored under the upper-cased key and returned by `get` for every casing
variant. At the concrete input: key `usd-libor-3m`, catalog type `USDLibor`
whose zero-argument construction fails, suffix `3m` classified as a term. The
registration succeeds, but line 34 stores the constructed index under the raw
key `usd-libor-3m`, and `get("usd-libor-3m")` — which looks up the upper-cased
key — returns the raw type name left by the base registration instead of the
constructed index. -/
theorem tenor_index_stored_under_raw_key_cex :
    (indexRegister ⟨fun _ => true, fun _ => false, fun _ => true⟩ []
        ("usd-libor-3m") ("USDLibor")).1 = .ok () ∧
    lookupS (indexRegister ⟨fun _ => true, fun _ => false, fun _ => true⟩ []
        ("usd-libor-3m") ("USDLibor")).2 ("usd-libor-3m") =
      some (.term ("USDLibor") ("3m")) ∧
    indexGet (indexRegister ⟨fun _ => true, fun _ => false, fun _ => true⟩ []
        ("usd-libor-3m") ("USDLibor")).2 ("usd-libor-3m") =
      .ok (.raw ("USDLibor")) :=
  ⟨by decide, by decide, by decide⟩

/-- Claim C2, amended. For a key `k` freshly registered with
`IndexRegistry.register`: when the parameterless construction succeeds, the
index is stored under the upper-cased key and `get(s)` returns that same
stored index for every casing variant `s` of `k`; when the index is built by
the tenor fallback branch it is stored under the raw key, so the same holds
only when the raw key is already upper-cased. -/
theorem index_register_get_case_insensitive (env : QLEnv)
    (st : Store IndexVal) (k tn : String)
    (hfresh : lookupS st (upStr k) = none) (hA : env.hasAttr tn = true) :
    (env.bareOk tn = true →
      (indexRegister env st k tn).1 = .ok () ∧
      ∀ s, upStr s = upStr k →
        indexGet (indexRegister env st k tn).2 s = .ok (.bare tn)) ∧
    (env.bareOk tn = false → env.is_term (lastToken k) = true → upStr k = k →
      (indexRegister env st k tn).1 = .ok () ∧
      ∀ s, upStr s = upStr k →
        indexGet (indexRegister env st k tn).2 s =
          .ok (.term tn (lastToken k))) := by
  have hc := containsS_false hfresh
  constructor
  · intro hB
    rw [indexRegister_bare hc hA hB]
    refine ⟨rfl, ?_⟩
    intro s hs
    simp [indexGet, insertS, lookupS, hs]
  · intro hB hT hk
    rw [indexRegister_term hc hA hB hT]
    refine ⟨rfl, ?_⟩
    intro s hs
    rw [indexGet]
    simp only [insertS, lookupS]
    rw [hs, hk, if_pos rfl]

/-- Claim C2, witness for the amended theorem: a parameterless index `SOFR`
retrieved through `get("sofr")`, and a tenor index registered under the
already-upper-cased key `USD-LIBOR-3M` retrieved through
`get("usd-libor-3m")`. -/
theorem index_register_get_case_insensitive_witness :
    ((indexRegister ⟨fun _ => true, fun _ => true, fun _ => true⟩ []
        ("SOFR") ("Sofr")).1 = .ok () ∧
      indexGet (indexRegister ⟨fun _ => true, fun _ => true, fun _ => true⟩ []
        ("SOFR") ("Sofr")).2 ("sofr") = .ok (.bare ("Sofr"))) ∧
    ((indexRegister ⟨fun _ => true, fun _ => false, fun _ => true⟩ []
        ("USD-LIBOR-3M") ("USDLibor")).1 = .ok () ∧
      indexGet (indexRegister ⟨fun _ => true, fun _ => false, fun _ => true⟩ []
        ("USD-LIBOR-3M") ("USDLibor")).2 ("usd-libor-3m") =
        .ok (.term ("USDLibor") ("3M"))) := by
  have h1 := (index_register_get_case_insensitive
    ⟨fun _ => true, fun _ => true, fun _ => true⟩ []
    ("SOFR") ("Sofr") (by decide) (by decide)).1 (by decide)
  have h2 := (index_register_get_case_insensitive
    ⟨fun _ => true, fun _ => false, fun _ => true⟩ []
    ("USD-LIBOR-3M") ("USDLibor") (by decide) (by decide)).2
    (by decide) (by decide) (by decide)
  exact ⟨⟨h1.1, h1.2 ("sofr") (by decide)⟩,
    ⟨h2.1, by
      have h3 := h2.2 ("usd-libor-3m") (by decide)
      rwa [show lastToken ("USD-LIBOR-3M") = ("3M") from by decide] at h3⟩⟩

/-! ## Claim C5 -/

/-- Claim C5: `DataConventionRegistry.register` operates on a copy of the spec
dict — the dict object the caller passed is unmodified by the call, whatever
the outcome; in particular a "type" entry present before the call is still
present (with the same value) afterwards. -/
theorem dcr_register_preserves_caller_dict (fstore : Store SharedVal)
    (st : Store DCVal) (k : String) (d : SpecDict) :
    (dcrRegister fstore st k d).callerDict = d ∧
    ∀ t, lookupS d ("type") = some t →
      lookupS (dcrRegister fstore st k d).callerDict ("type") = some t := by
  have hcd : (dcrRegister fstore st k d).callerDict = d := by
    cases hcb : containsS st (upStr k) with
    | true => rw [dcrRegister_dup hcb]
    | false =>
      cases hty : lookupS d ("type") with
      | none => rw [dcrRegister_missing hcb hty]
      | some ty =>
        cases ty with
        | num n => rw [dcrRegister_badtype hcb hty]
        | str tyName =>
          cases hf : lookupS fstore (upStr tyName) with
          | none => rw [dcrRegister_noctor hcb hty hf]
          | some f => rw [dcrRegister_ok hcb hty hf]
  exact ⟨hcd, fun t ht => by rw [hcd]; exact ht⟩

/-- Claim C5, witness at the concrete input of the spec: key `30/360` and the
dict with entries `type = Actual360` and `other_field = 7`, registered against
a function registry that knows `Actual360`. -/
theorem dcr_register_preserves_caller_dict_witness :
    (dcrRegister [(("ACTUAL360"), .ctorFn ("Actual360"))] []
        ("30/360") [(("type"), .str ("Actual360")), (("other_field"), .num 7)]
      ).callerDict =
      [(("type"), .str ("Actual360")), (("other_field"), .num 7)] ∧
    lookupS (dcrRegister [(("ACTUAL360"), .ctorFn ("Actual360"))] []
        ("30/360") [(("type"), .str ("Actual360")), (("other_field"), .num 7)]
      ).callerDict ("type") = some (.str ("Actual360")) := by
  have h := dcr_register_preserves_caller_dict
    [(("ACTUAL360"), .ctorFn ("Actual360"))] [] ("30/360")
    [(("type"), .str ("Actual360")), (("other_field"), .num 7)]
  exact ⟨h.1, h.2 (.str ("Actual360")) (by decide)⟩

/-! ## Claim C6 -/

/-- Claim C6: registering a convention spec that lacks the "type" field fails
with MissingField, before any constructor lookup happens — the whole outcome
(error, store left behind, caller dict) is the same whatever the
`DataConventionRegFunction` store holds. -/
theorem dcr_register_missing_type_before_lookup
    (fstore fstore2 : Store SharedVal) (st : Store DCVal)
    (k : String) (d : SpecDict)
    (hfresh : lookupS st (upStr k) = none)
    (hmiss : lookupS d ("type") = none) :
    dcrRegister fstore st k d =
      ⟨.error .missingField, insertS st (upStr k) (.rawSpec d), d⟩ ∧
    dcrRegister fstore st k d = dcrRegister fstore2 st k d := by
  have hc := containsS_false hfresh
  rw [dcrRegister_missing hc hmiss, dcrRegister_missing hc hmiss]
  exact ⟨rfl, rfl⟩

/-- Claim C6, witness: a fresh registry, key `30/360`, a dict with only
`other_field = 7`, compared across a populated and an empty function
registry. -/
theorem dcr_register_missing_type_before_lookup_witness :
    dcrRegister [(("ACTUAL360"), .ctorFn ("Actual360"))] []
        ("30/360") [(("other_field"), .num 7)] =
      ⟨.error .missingField,
       insertS [] (upStr ("30/360")) (.rawSpec [(("other_field"), .num 7)]),
       [(("other_field"), .num 7)]⟩ ∧
    dcrRegister [(("ACTUAL360"), .ctorFn ("Actual360"))] []
        ("30/360") [(("other_field"), .num 7)] =
      dcrRegister [] [] ("30/360") [(("other_field"), .num 7)] :=
  dcr_register_missing_type_before_lookup
    [(("ACTUAL360"), .ctorFn ("Actual360"))] [] [] ("30/360")
    [(("other_field"), .num 7)] (by decide) (by decide)

/-! ## Claim C7 -/

/-- Claim C7: when the parameterless construction fails and the suffix after
the last `-` separator is not a relative term, `IndexRegistry.register` fails
with the ConstructionError "Cannot create a term index for key ...", and no
constructed index is stored for that key — the only entry left under the key
is the raw type name of the base registration. -/
theorem index_register_construction_error (env : QLEnv)
    (st : Store IndexVal) (k tn : String)
    (hfresh : lookupS st (upStr k) = none) (hA : env.hasAttr tn = true)
    (hB : env.bareOk tn = false) (hT : env.is_term (lastToken k) = false) :
    (indexRegister env st k tn).1 =
      .error (.constructionError
        (("Cannot create a term index for key ") ++ k ++ ("."))) ∧
    (indexRegister env st k tn).2 = insertS st (upStr k) (.raw tn) ∧
    ∀ v, lookupS (indexRegister env st k tn).2 (upStr k) = some v →
      v = .raw tn := by
  have hc := containsS_false hfresh
  rw [indexRegister_cerr hc hA hB hT]
  refine ⟨rfl, rfl, ?_⟩
  intro v hv
  rw [lookupS_insertS_self] at hv
  exact (Option.some_inj.mp hv).symm

/-- Claim C7, witness: key `usd-libor-xx` whose suffix `xx` is no term, type
`USDLibor` whose zero-argument construction fails. -/
theorem index_register_construction_error_witness :
    (indexRegister ⟨fun _ => true, fun _ => false, fun _ => false⟩ []
        ("usd-libor-xx") ("USDLibor")).1 =
      .error (.constructionError
        (("Cannot create a term index for key ") ++ ("usd-libor-xx") ++ ("."))) ∧
    (indexRegister ⟨fun _ => true, fun _ => false, fun _ => false⟩ []
        ("usd-libor-xx") ("USDLibor")).2 =
      insertS [] (upStr ("usd-libor-xx")) (.raw ("USDLibor")) := by
  have h := index_register_construction_error
    ⟨fun _ => true, fun _ => false, fun _ => false⟩ []
    ("usd-libor-xx") ("USDLibor") (by decide) (by decide) (by decide) (by decide)
  exact ⟨h.1, h.2.1⟩

/-! ## Stepping lemmas for the fixings manager -/

theorem fixRegister_nofile {env : FixEnv} {st : Store Series} {k : String}
    {v : Series} (h : containsS st (upStr k) = false)
    (hf : env.files (loStr k) = none) :
    fixRegister env st k v = (.ok (), insertS st (upStr k) v) := by
  simp [fixRegister, registerBase, h, hf]

theorem fixRegister_file {env : FixEnv} {st : Store Series} {k : String}
    {v : Series} {rows : List (DateStr × ℚ)}
    (h : containsS st (upStr k) = false)
    (hf : env.files (loStr k) = some rows) :
    fixRegister env st k v =
      (.ok (), loadRows (insertS st (upStr k) v) (upStr k) rows) := by
  simp [fixRegister, registerBase, h, hf]

theorem insert_fixing_new {st : Store Series} {idx : String} {s : Series}
    {d : DateStr} {v : ℚ} (hg : getBase st (loStr idx) = .ok s)
    (hd : seriesGet s d = none) :
    insert_fixing st idx d v =
      (.ok (), insertS st (upStr (loStr idx)) (seriesSet s d v)) := by
  simp [insert_fixing, hg, hd]

theorem insert_fixing_dup {st : Store Series} {idx : String} {s : Series}
    {d : DateStr} {v w : ℚ} (hg : getBase st (loStr idx) = .ok s)
    (hd : seriesGet s d = some w) :
    insert_fixing st idx d v = (.ok (), st) := by
  simp [insert_fixing, hg, hd]

/-! ## Claim C3 -/

/-- Claim C3: after `IndexFixingsManager.register("SOFR", _)` loads a CSV file
with rows `2020-01-01, 1.25` and `2020-01-02, 1.30`, the fixings are
retrievable through the lower-cased index argument:
`exist_fixing("sofr", 2020-01-01)` is true and
`get_fixing("sofr", 2020-01-02)` returns 1.30. Stated over any prior store
not yet holding the key and any registered series value. -/
theorem csv_fixings_retrievable_lowercase (st : Store Series) (v : Series)
    (hfresh : lookupS st (upStr ("SOFR")) = none) :
    (fixRegister ⟨fun p => if p = ("sofr") then
        some [(("2020-01-01"), (1.25 : ℚ)), (("2020-01-02"), (1.30 : ℚ))]
      else none⟩ st ("SOFR") v).1 = .ok () ∧
    exist_fixing (fixRegister ⟨fun p => if p = ("sofr") then
        some [(("2020-01-01"), (1.25 : ℚ)), (("2020-01-02"), (1.30 : ℚ))]
      else none⟩ st ("SOFR") v).2 ("sofr") ("2020-01-01") = .ok true ∧
    get_fixing (fixRegister ⟨fun p => if p = ("sofr") then
        some [(("2020-01-01"), (1.25 : ℚ)), (("2020-01-02"), (1.30 : ℚ))]
      else none⟩ st ("SOFR") v).2 ("sofr") ("2020-01-02") = .ok (1.30 : ℚ) := by
  have hfile : (⟨fun p => if p = ("sofr") then
      some [(("2020-01-01"), (1.25 : ℚ)), (("2020-01-02"), (1.30 : ℚ))]
    else none⟩ : FixEnv).files (loStr ("SOFR")) =
      some [(("2020-01-01"), (1.25 : ℚ)), (("2020-01-02"), (1.30 : ℚ))] := by
    rw [show loStr ("SOFR") = ("sofr") from by decide]
    simp
  rw [fixRegister_file (containsS_false hfresh) hfile]
  rw [show upStr ("SOFR") = ("SOFR") from by decide]
  have hload : loadRows (insertS st ("SOFR") v) ("SOFR")
      [(("2020-01-01"), (1.25 : ℚ)), (("2020-01-02"), (1.30 : ℚ))] =
      insertS (insertS (insertS st ("SOFR") v) ("SOFR")
          (seriesSet v ("2020-01-01") (1.25 : ℚ))) ("SOFR")
        (seriesSet (seriesSet v ("2020-01-01") (1.25 : ℚ))
          ("2020-01-02") (1.30 : ℚ)) := by
    unfold loadRows
    simp [List.foldl, lookupS_insertS_self]
  rw [hload]
  have hg : getBase (insertS (insertS (insertS st ("SOFR") v) ("SOFR")
      (seriesSet v ("2020-01-01") (1.25 : ℚ))) ("SOFR")
        (seriesSet (seriesSet v ("2020-01-01") (1.25 : ℚ))
          ("2020-01-02") (1.30 : ℚ))) (loStr ("sofr")) =
      .ok (seriesSet (seriesSet v ("2020-01-01") (1.25 : ℚ))
        ("2020-01-02") (1.30 : ℚ)) := by
    unfold getBase
    rw [show upStr (loStr ("sofr")) = ("SOFR") from by decide]
    rw [lookupS_insertS_self]
  refine ⟨rfl, ?_, ?_⟩
  · unfold exist_fixing
    simp only [hg]
    rw [show seriesGet (seriesSet (seriesSet v ("2020-01-01") (1.25 : ℚ))
      ("2020-01-02") (1.30 : ℚ)) ("2020-01-01") = some (1.25 : ℚ) from by
        simp [seriesGet, seriesSet, insertS, lookupS]]
    rfl
  · unfold get_fixing
    simp only [hg]
    rw [show seriesGet (seriesSet (seriesSet v ("2020-01-01") (1.25 : ℚ))
      ("2020-01-02") (1.30 : ℚ)) ("2020-01-02") = some (1.30 : ℚ) from
        lookupS_insertS_self ..]

/-- Claim C3, witness: the empty prior store and an empty registered series. -/
theorem csv_fixings_retrievable_lowercase_witness :
    exist_fixing (fixRegister ⟨fun p => if p = ("sofr") then
        some [(("2020-01-01"), (1.25 : ℚ)), (("2020-01-02"), (1.30 : ℚ))]
      else none⟩ [] ("SOFR") []).2 ("sofr") ("2020-01-01") = .ok true ∧
    get_fixing (fixRegister ⟨fun p => if p = ("sofr") then
        some [(("2020-01-01"), (1.25 : ℚ)), (("2020-01-02"), (1.30 : ℚ))]
      else none⟩ [] ("SOFR") []).2 ("sofr") ("2020-01-02") = .ok (1.30 : ℚ) := by
  have h := csv_fixings_retrievable_lowercase [] [] (by decide)
  exact ⟨h.2.1, h.2.2⟩

/-! ## Claim C4 -/

/-- Claim C4: `insert_fixing` is first-write-wins. For a registered index
series and a date not yet present, inserting `v1` and then `v2` on the same
date raises no error, the second call leaves the store exactly as the first
left it, and `get_fixing` returns `v1`. -/
theorem insert_fixing_first_write_wins (st : Store Series) (idx : String)
    (s : Series) (d : DateStr) (v1 v2 : ℚ)
    (hreg : getBase st (loStr idx) = .ok s)
    (hfresh : seriesGet s d = none) :
    (insert_fixing st idx d v1).1 = .ok () ∧
    insert_fixing (insert_fixing st idx d v1).2 idx d v2 =
      (.ok (), (insert_fixing st idx d v1).2) ∧
    get_fixing (insert_fixing st idx d v1).2 idx d = .ok v1 := by
  rw [insert_fixing_new hreg hfresh]
  have hg2 : getBase (insertS st (upStr (loStr idx)) (seriesSet s d v1))
      (loStr idx) = .ok (seriesSet s d v1) := by
    unfold getBase
    rw [lookupS_insertS_self]
  have hd2 : seriesGet (seriesSet s d v1) d = some v1 :=
    lookupS_insertS_self ..
  refine ⟨rfl, ?_, ?_⟩
  · rw [insert_fixing_dup hg2 hd2]
  · simp [get_fixing, hg2, hd2]

/-- Claim C4, witness: index `sofr` registered with an empty series, date
`2020-01-01`, first value 1, second value 2. -/
theorem insert_fixing_first_write_wins_witness :
    (insert_fixing [(("SOFR"), [])] ("sofr") ("2020-01-01") 1).1 = .ok () ∧
    insert_fixing (insert_fixing [(("SOFR"), [])] ("sofr") ("2020-01-01") 1).2
        ("sofr") ("2020-01-01") 2 =
      (.ok (), (insert_fixing [(("SOFR"), [])] ("sofr") ("2020-01-01") 1).2) ∧
    get_fixing (insert_fixing [(("SOFR"), [])] ("sofr") ("2020-01-01") 1).2
      ("sofr") ("2020-01-01") = .ok 1 :=
  insert_fixing_first_write_wins [(("SOFR"), [])] ("sofr") [] ("2020-01-01")
    1 2 (by decide) (by decide)

/-! ## Claim C8 -/

/-- Claim C8: `remove_fixing(index)` with no date erases the whole series, so
every subsequent `get_fixing(index, d)` fails NotFound and every subsequent
`insert_fixing(index, d, v)` fails NotFound, until the index is
re-registered. -/
theorem remove_fixing_erases_series (st : Store Series) (idx : String)
    (series : Series) (hreg : lookupS st (upStr idx) = some series) :
    (remove_fixing st idx none).1 = .ok () ∧
    (∀ d, get_fixing (remove_fixing st idx none).2 idx d = .error .notFound) ∧
    (∀ d v, (insert_fixing (remove_fixing st idx none).2 idx d v).1 =
      .error .notFound) := by
  have hrm : remove_fixing st idx none = (.ok (), eraseS st (upStr idx)) := by
    simp [remove_fixing, eraseBase, containsS_true hreg]
  rw [hrm]
  have hg : getBase (eraseS st (upStr idx)) (loStr idx) = .error .notFound := by
    unfold getBase
    rw [upStr_loStr, lookupS_eraseS_self]
  refine ⟨rfl, ?_, ?_⟩
  · intro d
    simp [get_fixing, hg]
  · intro d v
    simp [insert_fixing, hg]

/-- Claim C8, witness: a store holding one SOFR fixing, removed through the
lower-cased index argument, then queried and inserted on a concrete date. -/
theorem remove_fixing_erases_series_witness :
    (remove_fixing [(("SOFR"), [(("2020-01-01"), (1 : ℚ))])] ("sofr")
      none).1 = .ok () ∧
    get_fixing (remove_fixing [(("SOFR"), [(("2020-01-01"), (1 : ℚ))])]
        ("sofr") none).2 ("sofr") ("2020-01-01") = .error .notFound ∧
    (insert_fixing (remove_fixing [(("SOFR"), [(("2020-01-01"), (1 : ℚ))])]
        ("sofr") none).2 ("sofr") ("2020-01-02") 2).1 = .error .notFound := by
  have h := remove_fixing_erases_series
    [(("SOFR"), [(("2020-01-01"), (1 : ℚ))])] ("sofr")
    [(("2020-01-01"), (1 : ℚ))] (by decide)
  exact ⟨h.1, h.2.1 ("2020-01-01"), h.2.2 ("2020-01-02") 2⟩

/-! ## Claim C9 -/

/-- Claim C9: when no fixings file exists for the key,
`IndexFixingsManager.register` succeeds and the key is registered with an
empty series; a subsequent `insert_fixing` succeeds and `get_fixing` then
returns the inserted value — pure in-memory fixing management. -/
theorem register_missing_file_empty_series (env : FixEnv) (st : Store Series)
    (k : String) (d : DateStr) (v : ℚ)
    (hfile : env.files (loStr k) = none)
    (hfresh : lookupS st (upStr k) = none) :
    (fixRegister env st k []).1 = .ok () ∧
    lookupS (fixRegister env st k []).2 (upStr k) = some [] ∧
    (insert_fixing (fixRegister env st k []).2 k d v).1 = .ok () ∧
    get_fixing (insert_fixing (fixRegister env st k []).2 k d v).2 k d =
      .ok v := by
  rw [fixRegister_nofile (containsS_false hfresh) hfile]
  have hg : getBase (insertS st (upStr k) []) (loStr k) = .ok [] := by
    unfold getBase
    rw [upStr_loStr, lookupS_insertS_self]
  have hins := insert_fixing_new (d := d) (v := v) hg (by rfl)
  rw [hins]
  refine ⟨rfl, lookupS_insertS_self .., rfl, ?_⟩
  have hg2 : getBase (insertS (insertS st (upStr k) []) (upStr (loStr k))
      (seriesSet [] d v)) (loStr k) = .ok (seriesSet [] d v) := by
    unfold getBase
    rw [lookupS_insertS_self]
  unfold get_fixing
  simp only [hg2]
  have hsv : seriesGet (seriesSet [] d v) d = some v := lookupS_insertS_self ..
  simp only [hsv]

/-- Claim C9, witness: empty filesystem, fresh store, key `SOFR`, one fixing
inserted in memory on `2020-01-01`. -/
theorem register_missing_file_empty_series_witness :
    (fixRegister ⟨fun _ => none⟩ [] ("SOFR") []).1 = .ok () ∧
    (insert_fixing (fixRegister ⟨fun _ => none⟩ [] ("SOFR") []).2 ("SOFR")
      ("2020-01-01") 1).1 = .ok () ∧
    get_fixing (insert_fixing (fixRegister ⟨fun _ => none⟩ [] ("SOFR") []).2
      ("SOFR") ("2020-01-01") 1).2 ("SOFR") ("2020-01-01") = .ok 1 := by
  have h := register_missing_file_empty_series ⟨fun _ => none⟩ [] ("SOFR")
    ("2020-01-01") 1 (by decide) (by decide)
  exact ⟨h.1, h.2.2.1, h.2.2.2⟩

/-! ## Claim C10 -/

/-- Claim C10: `DataConventionRegFunction` and `DataIdentifierRegistry` are
both constructed with the empty-string namespace, so under the singleton rule
they share one underlying store: after `DataIdentifierRegistry.register(k, v)`
a `DataConventionRegFunction.register(k, f)` fails DuplicateKey, and
`DataConventionRegFunction.get(k)` returns `v`. -/
theorem blank_namespace_shared_store (p : NsState) (k : String)
    (v f : SharedVal)
    (hfresh : lookupS (p dirNamespace) (upStr k) = none) :
    dcfNamespace = dirNamespace ∧
    (dirRegister p k v).1 = .ok () ∧
    (dcfRegister (dirRegister p k v).2 k f).1 = .error .duplicateKey ∧
    dcfGet (dirRegister p k v).2 k = .ok v := by
  have hdir : dirRegister p k v =
      (.ok (), nsUpdate p dirNamespace
        (insertS (insertS (p dirNamespace) (upStr k) v) k v)) := by
    simp [dirRegister, registerBase, containsS_false hfresh]
  rw [hdir]
  have hstore : nsUpdate p dirNamespace
      (insertS (insertS (p dirNamespace) (upStr k) v) k v) dcfNamespace =
      insertS (insertS (p dirNamespace) (upStr k) v) k v := by
    simp [nsUpdate, dcfNamespace, dirNamespace]
  have hlk : lookupS (insertS (insertS (p dirNamespace) (upStr k) v) k v)
      (upStr k) = some v := by
    by_cases hk : upStr k = k
    · simp [insertS, lookupS, hk]
    · simp only [insertS, lookupS]
      rw [if_neg hk]
      simp
  refine ⟨rfl, rfl, ?_, ?_⟩
  · simp [dcfRegister, registerBase, hstore, containsS_true hlk]
  · simp [dcfGet, getBase, hstore, hlk]

/-- Claim C10, witness: empty process state, key `Curve30`, an identifier
value and a constructor function. -/
theorem blank_namespace_shared_store_witness :
    (dirRegister (fun _ => []) ("Curve30") (.ident ("V"))).1 = .ok () ∧
    (dcfRegister (dirRegister (fun _ => []) ("Curve30") (.ident ("V"))).2
      ("Curve30") (.ctorFn ("F"))).1 = .error .duplicateKey ∧
    dcfGet (dirRegister (fun _ => []) ("Curve30") (.ident ("V"))).2
      ("Curve30") = .ok (.ident ("V")) := by
  have h := blank_namespace_shared_store (fun _ => []) ("Curve30")
    (.ident ("V")) (.ctorFn ("F")) (by decide)
  exact ⟨h.2.1, h.2.2.1, h.2.2.2⟩

end Registries
